import Mathlib

/-!
Verification of the register-accessor layer of the `xhci` crate
(`src/extended_capabilities/debug.rs` and
`src/extended_capabilities/xhci_extended_message_interrupt.rs`).

Machine integers (`u32`, `u64`, `u16`, `u8`) are embedded as `Nat` with
explicit bounds (`< 2 ^ 32`, ...) where they matter.  The bit manipulation
primitives of the `bit_field` crate (`get_bit`, `get_bits`, `set_bit`,
`set_bits`) used by the source are embedded as `Nat` functions below.
Panicking operations (`assert!`, `unwrap`) are embedded as `Option`-returning
functions where a claim is about the panic.

The field-accessor generating declarations (`ro_bit!`, `rw_bit!`, `rw1c_bit!`,
`rw1s_bit!`, `ro_field!`, `wo_field!`, `rw_field!`) are invoked by the source
but their bodies are not part of this repository snapshot; their semantics,
together with the hardware-side behaviour of each access category, is
modelled from the spec (its section 4.3) and every such definition is marked
`Modelled from the spec:` in its doc comment.
-/

/-- Bit mask of `len` ones: `2 ^ len - 1`. -/
def mask (len : Nat) : Nat := 2 ^ len - 1

/-- Embedding of `bit_field`'s `get_bits(lo..=hi)`: extract bits `lo..=hi`
of `v`, right-shifted to bit 0. -/
def getBits (v lo hi : Nat) : Nat := (v >>> lo) % 2 ^ (hi + 1 - lo)

/-- Embedding of `bit_field`'s `get_bit(i)`. -/
def getBit (v i : Nat) : Bool := v.testBit i

/-- Embedding of `bit_field`'s `set_bits(lo..=hi, x)` on a `w`-bit integer:
clear bits `lo..=hi` of `v` and install `x` there.  (`bit_field` additionally
asserts `x < 2 ^ (hi + 1 - lo)`; theorems carry that bound where needed.) -/
def setBits (w v lo hi x : Nat) : Nat :=
  (v &&& (mask w ^^^ (mask (hi + 1 - lo) <<< lo))) ||| (x <<< lo)

/-- Embedding of `bit_field`'s `set_bit(i, b)` on a `w`-bit integer. -/
def setBit (w v i : Nat) (b : Bool) : Nat :=
  if b then v ||| (1 <<< i) else v &&& (mask w ^^^ (1 <<< i))

/-- Embedding of `u64::trailing_zeros` (with fuel = bit width, so that
`trailingZeros 64 0 = 64`, matching Rust). -/
def trailingZeros : Nat → Nat → Nat
  | 0, _ => 0
  | w + 1, a => if a % 2 = 1 then 0 else trailingZeros w (a / 2) + 1

/-- Embedding of `u16::try_from` on a `u32` value (`try_into()` in the
source); `none` models the `Err` case, which `unwrap` turns into a panic. -/
def u16TryFrom (n : Nat) : Option Nat := if n < 2 ^ 16 then some n else none

/-- The five bitfield access categories of the spec (section 4.3). -/
inductive Access
  | ro
  | wo
  | rw
  | rw1c
  | rw1s
deriving DecidableEq, Repr

/-- One named field of a register: the inclusive bit range `lo..=hi` and its
access category, as declared by the accessor-generating invocations in the
source. -/
structure FieldSpec where
  lo : Nat
  hi : Nat
  access : Access
  name : String
deriving DecidableEq, Repr

/-- The field (if any) of `fs` whose declared bit range contains bit `i`. -/
def fieldAt (fs : List FieldSpec) (i : Nat) : Option FieldSpec :=
  fs.find? (fun f => decide (f.lo ≤ i) && decide (i ≤ f.hi))

/-- Construct the natural number whose bit `i` is `f i` for `i < w`. -/
def natOfBits : (Nat → Bool) → Nat → Nat
  | _, 0 => 0
  | f, w + 1 => (if f 0 then 1 else 0) + 2 * natOfBits (fun i => f (i + 1)) w

/-- Modelled from the spec: the new value of bit `i` of a hardware register
with fields `fs` after the software writes `new` while the register held
`old` (spec section 4.3): RO bits ignore the write, RW/WO bits take the
written bit, RW1C bits are cleared by writing 1 and kept by writing 0,
RW1S bits are set by writing 1 and kept by writing 0; bits belonging to no
declared field are reserved and keep their value. -/
def hwBit (fs : List FieldSpec) (old new : Nat) (i : Nat) : Bool :=
  match fieldAt fs i with
  | none => old.testBit i
  | some f =>
    match f.access with
    | .ro => old.testBit i
    | .wo => new.testBit i
    | .rw => new.testBit i
    | .rw1c => old.testBit i && !(new.testBit i)
    | .rw1s => old.testBit i || new.testBit i

/-- Modelled from the spec: the whole-register effect, on a `w`-bit hardware
register with fields `fs` holding `old`, of the single write of `new` issued
by a field setter (spec sections 4.2 and 4.3). -/
def hwWrite (w : Nat) (fs : List FieldSpec) (old new : Nat) : Nat :=
  natOfBits (hwBit fs old new) w

/-- Modelled from the spec: bit `i` of the value a field setter writes, built
from the freshly read value `r` by installing `x` in the targeted field `f`
and copying every other bit, except that RW1C/RW1S bits outside the target
are written as 0 so they are "never implicitly copied back as 1 unless their
own setter is invoked with 1" (spec section 4.3). -/
def wvBit (fs : List FieldSpec) (f : FieldSpec) (r x : Nat) (i : Nat) : Bool :=
  if f.lo ≤ i ∧ i ≤ f.hi then x.testBit (i - f.lo)
  else
    match fieldAt fs i with
    | some g => if g.access = .rw1c ∨ g.access = .rw1s then false else r.testBit i
    | none => r.testBit i

/-- Modelled from the spec: the whole `w`-bit value a setter of field `f`
writes, given the freshly read register value `r` and the new field
content `x`. -/
def writeValue (w : Nat) (fs : List FieldSpec) (f : FieldSpec) (r x : Nat) : Nat :=
  natOfBits (wvBit fs f r x) w

/-- Modelled from the spec: a complete field-setter invocation on the
hardware register `hw`: read the whole register, compute the new whole value
changing only the targeted range, issue the single write (spec section 4.3). -/
def regSet (w : Nat) (fs : List FieldSpec) (f : FieldSpec) (x hw : Nat) : Nat :=
  hwWrite w fs hw (writeValue w fs f hw x)

/-- Modelled from the spec: a field getter re-reads the full register and
extracts and right-shifts the masked bits (spec section 4.3). -/
def regGet (f : FieldSpec) (hw : Nat) : Nat := getBits hw f.lo f.hi

/-- Modelled from the spec: the accessor methods generated for a field
"exist only for its category (no getter for WO, no setter for RO)"
(spec section 3). -/
inductive OpKind
  | get
  | set
deriving DecidableEq, Repr

/-- Modelled from the spec: which accessor methods a field of each category
exposes (spec sections 3 and 4.3). -/
def generatedOps : Access → List OpKind
  | .ro => [.get]
  | .wo => [.set]
  | .rw => [.get, .set]
  | .rw1c => [.get, .set]
  | .rw1s => [.get, .set]

/-- Modelled from the spec: the register-state effect of one generated
accessor method: a getter re-reads the register and changes nothing, a
setter performs the read-modify-write `regSet` (spec section 4.3). -/
def opEffect (w : Nat) (fs : List FieldSpec) (f : FieldSpec) :
    OpKind → Nat → Nat → Nat
  | .get, _, hw => hw
  | .set, x, hw => regSet w fs f x hw

/-! ## Debug Capability register block (`debug.rs`) -/

/-- One `Single<T, M>` register binding: its absolute address and the bit
width of its storage type (`u32` or `u64`). -/
structure SingleReg where
  addr : Nat
  width : Nat
deriving DecidableEq, Repr

/-- The eleven registers of the `Debug` struct. -/
structure DebugCap where
  dcid : SingleReg
  dcdb : SingleReg
  dcerstsz : SingleReg
  dcerstba : SingleReg
  dcerdp : SingleReg
  dcctrl : SingleReg
  dcst : SingleReg
  dcportsc : SingleReg
  dccp : SingleReg
  dcddi1 : SingleReg
  dcddi2 : SingleReg
deriving DecidableEq, Repr

/-- `Debug::new(base, mapper)`: each register is bound at `base + offset`
with the storage width of its wrapped type (`u32` = 32, `u64` = 64). -/
def Debug.new (base : Nat) : DebugCap :=
  ⟨⟨base + 0x00, 32⟩, ⟨base + 0x04, 32⟩, ⟨base + 0x08, 32⟩, ⟨base + 0x10, 64⟩,
   ⟨base + 0x18, 64⟩, ⟨base + 0x20, 32⟩, ⟨base + 0x24, 32⟩, ⟨base + 0x28, 32⟩,
   ⟨base + 0x30, 64⟩, ⟨base + 0x38, 32⟩, ⟨base + 0x3c, 32⟩⟩

/-- `Id` register (`Id(u32)`): one RO field declared by
`ro_field!(16..=20, debug_capability_event_ring_segment_table_max, _, u8)`. -/
def Id.fields : List FieldSpec :=
  [⟨16, 20, .ro, "debug_capability_event_ring_segment_table_max"⟩]

/-- Getter of the `Id` register's single RO field. -/
def Id.debug_capability_event_ring_segment_table_max (v : Nat) : Nat :=
  getBits v 16 20

/-- `Doorbell` register (`Doorbell(u32)`): one WO field declared by
`wo_field!(8..=15, doorbell_target, _, u8)`. -/
def Doorbell.fields : List FieldSpec := [⟨8, 15, .wo, "doorbell_target"⟩]

/-- The `doorbell_target` field of `Doorbell`. -/
def Doorbell.doorbellTargetF : FieldSpec := ⟨8, 15, .wo, "doorbell_target"⟩

/-- `EventRingSegmentTableSize` register (`u32`): hand-written RW accessors
on bits `0..=15`. -/
def EventRingSegmentTableSize.fields : List FieldSpec :=
  [⟨0, 15, .rw, "event_ring_segment_table_size"⟩]

/-- `EventRingSegmentTableSize::get`:
`self.0.get_bits(0..=15).try_into().unwrap()`; `none` models the panic of
`unwrap` on a failed `u32 → u16` conversion. -/
def EventRingSegmentTableSize.get (v : Nat) : Option Nat :=
  u16TryFrom (getBits v 0 15)

/-- `EventRingSegmentTableSize::set(sz)`: `self.0.set_bits(0..=15, sz.into())`. -/
def EventRingSegmentTableSize.set (v sz : Nat) : Nat := setBits 32 v 0 15 sz

/-- `EventRingSegmentTableBaseAddress` register (`u64`): the whole register
is the RW base-address field. -/
def EventRingSegmentTableBaseAddress.fields : List FieldSpec :=
  [⟨0, 63, .rw, "event_ring_segment_table_base_address"⟩]

/-- `EventRingSegmentTableBaseAddress::get`: returns `self.0`. -/
def EventRingSegmentTableBaseAddress.get (v : Nat) : Nat := v

/-- `EventRingSegmentTableBaseAddress::set(a)`:
`assert!(a.trailing_zeros() >= 4)` then `self.0 = a`; `none` models the
panic of a failed assertion. -/
def EventRingSegmentTableBaseAddress.set (v a : Nat) : Option Nat :=
  if 4 ≤ trailingZeros 64 a then some a else none

/-- `EventRingDequeuePointer` register (`u64`): RW field
`dequeue_erst_segment_index` on bits `0..=2` (declared by `rw_field!`) and
the hand-written dequeue-pointer accessors on bits `4..=63`. -/
def EventRingDequeuePointer.fields : List FieldSpec :=
  [⟨0, 2, .rw, "dequeue_erst_segment_index"⟩, ⟨4, 63, .rw, "dequeue_pointer"⟩]

/-- The `dequeue_erst_segment_index` field of `EventRingDequeuePointer`. -/
def EventRingDequeuePointer.dequeueErstSegmentIndexF : FieldSpec :=
  ⟨0, 2, .rw, "dequeue_erst_segment_index"⟩

/-- `EventRingDequeuePointer::dequeue_pointer`: `self.0 & !0b1111`. -/
def EventRingDequeuePointer.dequeue_pointer (v : Nat) : Nat :=
  v &&& (mask 64 ^^^ 0b1111)

/-- The value `EventRingDequeuePointer::set_dequeue_pointer` stores:
`self.0.set_bits(4..=63, a.get_bits(4..=63))`. -/
def EventRingDequeuePointer.setDequeuePointerVal (v a : Nat) : Nat :=
  setBits 64 v 4 63 (getBits a 4 63)

/-- `EventRingDequeuePointer::set_dequeue_pointer(a)`:
`assert!(a.trailing_zeros() >= 4)` then
`self.0.set_bits(4..=63, a.get_bits(4..=63))`; `none` models the panic. -/
def EventRingDequeuePointer.set_dequeue_pointer (v a : Nat) : Option Nat :=
  if 4 ≤ trailingZeros 64 a then some (EventRingDequeuePointer.setDequeuePointerVal v a)
  else none

/-- `Control` register (`Control(u32)`): fields exactly as declared in the
source (`ro_bit!`, `rw_bit!`, `rw1s_bit!`, `rw1c_bit!`, `ro_field!`). -/
def Control.fields : List FieldSpec :=
  [⟨0, 0, .ro, "dbc_run"⟩,
   ⟨1, 1, .rw, "link_status_event_enable"⟩,
   ⟨2, 2, .rw1s, "halt_out_tr"⟩,
   ⟨3, 3, .rw1s, "halt_in_tr"⟩,
   ⟨4, 4, .rw1c, "dbc_run_change"⟩,
   ⟨16, 23, .ro, "debug_max_burst_size"⟩,
   ⟨24, 30, .ro, "device_address"⟩,
   ⟨31, 31, .rw, "debug_capability_enable"⟩]

/-- The `link_status_event_enable` field of `Control`. -/
def Control.linkStatusEventEnableF : FieldSpec :=
  ⟨1, 1, .rw, "link_status_event_enable"⟩

/-- The `dbc_run_change` field of `Control`. -/
def Control.dbcRunChangeF : FieldSpec := ⟨4, 4, .rw1c, "dbc_run_change"⟩

/-- The `debug_capability_enable` field of `Control`. -/
def Control.debugCapabilityEnableF : FieldSpec :=
  ⟨31, 31, .rw, "debug_capability_enable"⟩

/-- The `halt_out_tr` field of `Control`. -/
def Control.haltOutTrF : FieldSpec := ⟨2, 2, .rw1s, "halt_out_tr"⟩

/-- The `halt_in_tr` field of `Control`. -/
def Control.haltInTrF : FieldSpec := ⟨3, 3, .rw1s, "halt_in_tr"⟩

/-- Getter of the `dbc_run` bit (bit 0). -/
def Control.dbc_run (v : Nat) : Bool := getBit v 0

/-- Getter of the `link_status_event_enable` bit (bit 1). -/
def Control.link_status_event_enable (v : Nat) : Bool := getBit v 1

/-- Getter of the `halt_out_tr` bit (bit 2). -/
def Control.halt_out_tr (v : Nat) : Bool := getBit v 2

/-- Getter of the `halt_in_tr` bit (bit 3). -/
def Control.halt_in_tr (v : Nat) : Bool := getBit v 3

/-- Getter of the `dbc_run_change` bit (bit 4). -/
def Control.dbc_run_change (v : Nat) : Bool := getBit v 4

/-- Getter of the `debug_capability_enable` bit (bit 31). -/
def Control.debug_capability_enable (v : Nat) : Bool := getBit v 31

/-- `Status` register (`Status(u32)`): three RO fields. -/
def Status.fields : List FieldSpec :=
  [⟨0, 0, .ro, "event_ring_not_empty"⟩,
   ⟨1, 1, .ro, "dbc_system_bus_reset"⟩,
   ⟨24, 31, .ro, "debug_port_number"⟩]

/-- `PortStatusAndControl` register (`u32`): fields exactly as declared in
the source. -/
def PortStatusAndControl.fields : List FieldSpec :=
  [⟨0, 0, .ro, "current_connect_status"⟩,
   ⟨1, 1, .rw, "port_enabled_disabled"⟩,
   ⟨4, 4, .ro, "port_reset"⟩,
   ⟨5, 8, .ro, "port_link_state"⟩,
   ⟨10, 13, .ro, "port_speed"⟩,
   ⟨17, 17, .rw1c, "connect_status_change"⟩,
   ⟨21, 21, .rw1c, "port_reset_change"⟩,
   ⟨22, 22, .rw1c, "port_link_status_change"⟩,
   ⟨23, 23, .rw1c, "port_config_error_change"⟩]

/-- The `port_enabled_disabled` field of `PortStatusAndControl`. -/
def PortStatusAndControl.portEnabledDisabledF : FieldSpec :=
  ⟨1, 1, .rw, "port_enabled_disabled"⟩

/-- The `connect_status_change` field of `PortStatusAndControl`. -/
def PortStatusAndControl.connectStatusChangeF : FieldSpec :=
  ⟨17, 17, .rw1c, "connect_status_change"⟩

/-- The `port_reset_change` field of `PortStatusAndControl`. -/
def PortStatusAndControl.portResetChangeF : FieldSpec :=
  ⟨21, 21, .rw1c, "port_reset_change"⟩

/-- The `port_link_status_change` field of `PortStatusAndControl`. -/
def PortStatusAndControl.portLinkStatusChangeF : FieldSpec :=
  ⟨22, 22, .rw1c, "port_link_status_change"⟩

/-- The `port_config_error_change` field of `PortStatusAndControl`. -/
def PortStatusAndControl.portConfigErrorChangeF : FieldSpec :=
  ⟨23, 23, .rw1c, "port_config_error_change"⟩

/-- Getter of the `current_connect_status` bit (bit 0). -/
def PortStatusAndControl.current_connect_status (v : Nat) : Bool := getBit v 0

/-- Getter of the `port_enabled_disabled` bit (bit 1). -/
def PortStatusAndControl.port_enabled_disabled (v : Nat) : Bool := getBit v 1

/-- Getter of the `connect_status_change` bit (bit 17). -/
def PortStatusAndControl.connect_status_change (v : Nat) : Bool := getBit v 17

/-- Getter of the `port_reset_change` bit (bit 21). -/
def PortStatusAndControl.port_reset_change (v : Nat) : Bool := getBit v 21

/-- Getter of the `port_link_status_change` bit (bit 22). -/
def PortStatusAndControl.port_link_status_change (v : Nat) : Bool := getBit v 22

/-- Getter of the `port_config_error_change` bit (bit 23). -/
def PortStatusAndControl.port_config_error_change (v : Nat) : Bool := getBit v 23

/-- `ContextPointer` register (`u64`): the whole register is the RW
context-pointer field. -/
def ContextPointer.fields : List FieldSpec := [⟨0, 63, .rw, "context_pointer"⟩]

/-- `ContextPointer::get`: returns `self.0`. -/
def ContextPointer.get (v : Nat) : Nat := v

/-- `ContextPointer::set(a)`: `assert!(a.trailing_zeros() >= 4)` then
`self.0 = a`; `none` models the panic. -/
def ContextPointer.set (v a : Nat) : Option Nat :=
  if 4 ≤ trailingZeros 64 a then some a else none

/-- `DeviceDescriptorInfo1` register (`u32`): two RW fields. -/
def DeviceDescriptorInfo1.fields : List FieldSpec :=
  [⟨0, 7, .rw, "dbc_protocol"⟩, ⟨16, 31, .rw, "vendor_id"⟩]

/-- The `dbc_protocol` field of `DeviceDescriptorInfo1`. -/
def DeviceDescriptorInfo1.dbcProtocolF : FieldSpec := ⟨0, 7, .rw, "dbc_protocol"⟩

/-- The `vendor_id` field of `DeviceDescriptorInfo1`. -/
def DeviceDescriptorInfo1.vendorIdF : FieldSpec := ⟨16, 31, .rw, "vendor_id"⟩

/-- `DeviceDescriptorInfo2` register (`u32`): two RW fields. -/
def DeviceDescriptorInfo2.fields : List FieldSpec :=
  [⟨0, 15, .rw, "product_id"⟩, ⟨16, 31, .rw, "device_revision"⟩]

/-- The `product_id` field of `DeviceDescriptorInfo2`. -/
def DeviceDescriptorInfo2.productIdF : FieldSpec := ⟨0, 15, .rw, "product_id"⟩

/-- The `device_revision` field of `DeviceDescriptorInfo2`. -/
def DeviceDescriptorInfo2.deviceRevisionF : FieldSpec :=
  ⟨16, 31, .rw, "device_revision"⟩

/-! ## Extended Message Interrupt block (`xhci_extended_message_interrupt.rs`) -/

/-- `MessageControl` register (`MessageControl(u16)`): RW bit 15
(`msi_x_enable`) and RO field `0..=10` (`table_size`). -/
def MessageControl.fields : List FieldSpec :=
  [⟨15, 15, .rw, "msi_x_enable"⟩, ⟨0, 10, .ro, "table_size"⟩]

/-- The `msi_x_enable` field of `MessageControl`. -/
def MessageControl.msiXEnableF : FieldSpec := ⟨15, 15, .rw, "msi_x_enable"⟩

/-- Getter of the `msi_x_enable` bit (bit 15). -/
def MessageControl.msi_x_enable (v : Nat) : Bool := getBit v 15

/-- `TableOffset` register (`TableOffset(u32)`): RO field `0..=2` (`bir`). -/
def TableOffset.fields : List FieldSpec := [⟨0, 2, .ro, "bir"⟩]

/-- `TableOffset::offset`: `self.0 & !0b111`. -/
def TableOffset.offset (v : Nat) : Nat := v &&& (mask 32 ^^^ 0b111)

/-- `TableOffset::bir`: RO getter of bits `0..=2`. -/
def TableOffset.bir (v : Nat) : Nat := getBits v 0 2

/-! ## Hardware-level setter invocations

These compose a value-level setter translated from the source with the
spec-modelled hardware write `hwWrite` (read-modify-write through the
`Single` accessor). -/

/-- Modelled from the spec: a complete invocation of
`EventRingSegmentTableSize::set` through the accessor: read, apply the
source's `set`, write. -/
def EventRingSegmentTableSize.hwSet (hw sz : Nat) : Nat :=
  hwWrite 32 EventRingSegmentTableSize.fields hw (EventRingSegmentTableSize.set hw sz)

/-- Modelled from the spec: a complete invocation of
`EventRingSegmentTableBaseAddress::set` through the accessor; `none` models
the alignment panic. -/
def EventRingSegmentTableBaseAddress.hwSet (hw a : Nat) : Option Nat :=
  match EventRingSegmentTableBaseAddress.set hw a with
  | none => none
  | some wv => some (hwWrite 64 EventRingSegmentTableBaseAddress.fields hw wv)

/-- Modelled from the spec: a complete invocation of
`EventRingDequeuePointer::set_dequeue_pointer` through the accessor; `none`
models the alignment panic. -/
def EventRingDequeuePointer.hwSetDequeuePointer (hw a : Nat) : Option Nat :=
  match EventRingDequeuePointer.set_dequeue_pointer hw a with
  | none => none
  | some wv => some (hwWrite 64 EventRingDequeuePointer.fields hw wv)

/-- Modelled from the spec: a complete invocation of `ContextPointer::set`
through the accessor; `none` models the alignment panic. -/
def ContextPointer.hwSet (hw a : Nat) : Option Nat :=
  match ContextPointer.set hw a with
  | none => none
  | some wv => some (hwWrite 64 ContextPointer.fields hw wv)

/-! ## Bit-level lemmas -/

/-- Bit `i` of `natOfBits f w` is `f i` for `i < w`, else `false`. -/
theorem natOfBits_testBit (f : Nat → Bool) (w i : Nat) :
    (natOfBits f w).testBit i = (decide (i < w) && f i) := by
  induction w generalizing f i with
  | zero => simp [natOfBits]
  | succ w ih =>
    cases i with
    | zero =>
      cases h : f 0 <;> simp [natOfBits, Nat.testBit_zero, h] <;> omega
    | succ i =>
      rw [natOfBits, Nat.testBit_succ]
      have hdiv : ((if f 0 then 1 else 0) + 2 * natOfBits (fun i => f (i + 1)) w) / 2
          = natOfBits (fun i => f (i + 1)) w := by
        cases f 0 <;> simp <;> omega
      rw [hdiv, ih]
      by_cases h : i < w <;> simp [h, Nat.succ_lt_succ_iff]

/-- Bit `j` of `getBits v lo hi`. -/
theorem testBit_getBits (v lo hi j : Nat) :
    (getBits v lo hi).testBit j
      = (decide (j < hi + 1 - lo) && v.testBit (lo + j)) := by
  rw [getBits, Nat.testBit_mod_two_pow, Nat.testBit_shiftRight]

/-- `getBits` is bounded by the width of the extracted range. -/
theorem getBits_lt (v lo hi : Nat) : getBits v lo hi < 2 ^ (hi + 1 - lo) :=
  Nat.mod_lt _ (Nat.two_pow_pos _)

/-- Bit `i` of `setBits w v lo hi x`, for `x` fitting the range and
`hi < w`. -/
theorem testBit_setBits (w v lo hi x i : Nat) (hx : x < 2 ^ (hi + 1 - lo))
    (hhi : hi < w) :
    (setBits w v lo hi x).testBit i =
      if lo ≤ i ∧ i ≤ hi then x.testBit (i - lo)
      else if i < w then v.testBit i else false := by
  have hxbit : ∀ j, hi + 1 - lo ≤ j → x.testBit j = false := fun j hj =>
    Nat.testBit_lt_two_pow (lt_of_lt_of_le hx (Nat.pow_le_pow_right (by norm_num) hj))
  rw [setBits, Nat.testBit_lor, Nat.testBit_land, Nat.testBit_xor, mask, mask,
    Nat.testBit_two_pow_sub_one, Nat.testBit_shiftLeft, Nat.testBit_shiftLeft,
    Nat.testBit_two_pow_sub_one]
  by_cases h1 : lo ≤ i
  · by_cases h2 : i ≤ hi
    · have h3 : i < w := by omega
      have h4 : i - lo < hi + 1 - lo := by omega
      simp [h1, h2, h3, h4]
    · have h4 : ¬ i - lo < hi + 1 - lo := by omega
      have h5 := hxbit (i - lo) (by omega)
      by_cases h3 : i < w <;> simp [h1, h2, h3, h4, h5]
  · have h2 : ¬ (lo ≤ i ∧ i ≤ hi) := by omega
    by_cases h3 : i < w <;> simp [h1, h2, h3]

/-- A single-bit `getBits` extraction, as a function of `testBit`. -/
theorem getBits_single (v i : Nat) :
    getBits v i i = if v.testBit i then 1 else 0 := by
  rw [getBits, Nat.shiftRight_eq_div_pow, Nat.testBit_to_div_mod]
  have h1 : i + 1 - i = 1 := by omega
  rw [h1, pow_one]
  rcases Nat.mod_two_eq_zero_or_one (v / 2 ^ i) with h | h <;> simp [h]

/-- Characterization of `k ≤ trailingZeros w a` as divisibility by `2 ^ k`. -/
theorem le_trailingZeros_iff (k : Nat) : ∀ w a : Nat, k ≤ w →
    (k ≤ trailingZeros w a ↔ a % 2 ^ k = 0) := by
  induction k with
  | zero => intro w a _; simp [Nat.mod_one]
  | succ k ih =>
    intro w a hk
    cases w with
    | zero => omega
    | succ w =>
      show k + 1 ≤ (if a % 2 = 1 then 0 else trailingZeros w (a / 2) + 1) ↔ _
      by_cases h : a % 2 = 1
      · rw [if_pos h]
        constructor
        · omega
        · intro hmod
          exfalso
          have h2 : a % 2 ^ (k + 1) % 2 = a % 2 := Nat.mod_mod_of_dvd a (dvd_pow_self 2 (Nat.succ_ne_zero k))
          rw [hmod] at h2
          omega
      · rw [if_neg h]
        have heven : a % 2 = 0 := by omega
        have hsplit : a % 2 ^ (k + 1) = 2 * (a / 2 % 2 ^ k) := by
          conv_lhs => rw [show a = 2 * (a / 2) by omega]
          rw [pow_succ, mul_comm (2 ^ k) 2, Nat.mul_mod_mul_left]
        rw [hsplit]
        have := ih w (a / 2) (by omega)
        omega

/-- `trailing_zeros() >= 4` on a `u64` is exactly 16-byte alignment. -/
theorem trailingZeros64_ge_four_iff (a : Nat) :
    4 ≤ trailingZeros 64 a ↔ a % 16 = 0 := by
  have := le_trailingZeros_iff 4 64 a (by omega)
  norm_num at this
  exact this

/-- Frame property of a spec-modelled field setter: a bit outside the
targeted field's declared range is unchanged on the hardware register,
whatever nest of fields the register has. -/
theorem regSet_frame (w : Nat) (fs : List FieldSpec) (f : FieldSpec)
    (x hw i : Nat) (hout : i < f.lo ∨ f.hi < i) (hhw : hw < 2 ^ w) :
    (regSet w fs f x hw).testBit i = hw.testBit i := by
  rw [regSet, hwWrite, natOfBits_testBit]
  by_cases hiw : i < w
  · simp only [hiw, decide_True, Bool.true_and]
    have hwv : (writeValue w fs f hw x).testBit i = wvBit fs f hw x i := by
      rw [writeValue, natOfBits_testBit]
      simp [hiw]
    have hnotin : ¬ (f.lo ≤ i ∧ i ≤ f.hi) := by omega
    cases hfa : fieldAt fs i with
    | none => simp [hwBit, hfa]
    | some g =>
      cases hacc : g.access <;> simp [hwBit, hfa, hacc, hwv, wvBit, hnotin]
  · simp only [hiw, decide_False, Bool.false_and]
    have : hw < 2 ^ i :=
      lt_of_lt_of_le hhw (Nat.pow_le_pow_right (by norm_num) (by omega))
    exact (Nat.testBit_lt_two_pow this).symm

/-- Value of bit `f.lo + j` of the hardware register after a spec-modelled
setter invocation on its own field `f`, by access category. -/
theorem regSet_testBit_own (w : Nat) (fs : List FieldSpec) (f : FieldSpec)
    (x hw j : Nat) (hj : j < f.hi + 1 - f.lo) (hhi : f.hi < w)
    (hfa : ∀ k, k < f.hi + 1 - f.lo → fieldAt fs (f.lo + k) = some f) :
    (regSet w fs f x hw).testBit (f.lo + j) =
      match f.access with
      | .ro => hw.testBit (f.lo + j)
      | .wo => x.testBit j
      | .rw => x.testBit j
      | .rw1c => hw.testBit (f.lo + j) && !(x.testBit j)
      | .rw1s => hw.testBit (f.lo + j) || x.testBit j := by
  have hiw : f.lo + j < w := by omega
  have hin : f.lo ≤ f.lo + j ∧ f.lo + j ≤ f.hi := by omega
  have hwv : (writeValue w fs f hw x).testBit (f.lo + j) = x.testBit j := by
    rw [writeValue, natOfBits_testBit]
    simp [hiw, wvBit, hin]
  rw [regSet, hwWrite, natOfBits_testBit]
  simp only [hiw, decide_True, Bool.true_and]
  cases hacc : f.access <;> simp [hwBit, hfa j hj, hacc, hwv]

/-- Round trip for a spec-modelled RW field: set then get returns the value
written, for any value representable in the field. -/
theorem regSet_get_rw (w : Nat) (fs : List FieldSpec) (f : FieldSpec)
    (x hw : Nat) (hacc : f.access = .rw) (hx : x < 2 ^ (f.hi + 1 - f.lo))
    (hhi : f.hi < w)
    (hfa : ∀ k, k < f.hi + 1 - f.lo → fieldAt fs (f.lo + k) = some f) :
    regGet f (regSet w fs f x hw) = x := by
  apply Nat.eq_of_testBit_eq
  intro j
  rw [regGet, testBit_getBits]
  by_cases hj : j < f.hi + 1 - f.lo
  · have h := regSet_testBit_own w fs f x hw j hj hhi hfa
    rw [hacc] at h
    simp [hj, h]
  · have : x.testBit j = false :=
      Nat.testBit_lt_two_pow
        (lt_of_lt_of_le hx (Nat.pow_le_pow_right (by norm_num) (by omega)))
    simp [hj, this]

/-- Invoking a spec-modelled RW1C field's own setter with all ones clears
the field: a subsequent get returns 0. -/
theorem regSet_get_rw1c_ones (w : Nat) (fs : List FieldSpec) (f : FieldSpec)
    (hw : Nat) (hacc : f.access = .rw1c) (hhi : f.hi < w)
    (hfa : ∀ k, k < f.hi + 1 - f.lo → fieldAt fs (f.lo + k) = some f) :
    regGet f (regSet w fs f (mask (f.hi + 1 - f.lo)) hw) = 0 := by
  apply Nat.eq_of_testBit_eq
  intro j
  rw [regGet, testBit_getBits]
  by_cases hj : j < f.hi + 1 - f.lo
  · have h := regSet_testBit_own w fs f (mask (f.hi + 1 - f.lo)) hw j hj hhi hfa
    rw [hacc] at h
    have hm : (mask (f.hi + 1 - f.lo)).testBit j = true := by
      rw [mask, Nat.testBit_two_pow_sub_one]
      simp [hj]
    simp [hj, h, hm]
  · simp [hj]

/-- A one-bit RW1C field is cleared by invoking its own setter with 1: the
bit of the hardware register reads back as 0. -/
theorem regSet_bit_rw1c_one_clear (w : Nat) (fs : List FieldSpec)
    (f : FieldSpec) (hw : Nat) (hacc : f.access = .rw1c) (heq : f.hi = f.lo)
    (hhi : f.hi < w)
    (hfa : ∀ k, k < f.hi + 1 - f.lo → fieldAt fs (f.lo + k) = some f) :
    (regSet w fs f 1 hw).testBit f.lo = false := by
  have h := regSet_get_rw1c_ones w fs f hw hacc hhi hfa
  have hlen : f.hi + 1 - f.lo = 1 := by omega
  rw [hlen] at h
  have hm : mask 1 = 1 := rfl
  rw [hm, regGet, heq, getBits_single] at h
  by_cases ht : (regSet w fs f 1 hw).testBit f.lo = true
  · simp [ht] at h
  · simpa using ht

/-- Round trip of a one-bit RW field setter taking a boolean. -/
theorem regSet_bit_rw_roundtrip (w : Nat) (fs : List FieldSpec)
    (f : FieldSpec) (b : Bool) (hw : Nat) (hacc : f.access = .rw)
    (heq : f.hi = f.lo) (hhi : f.hi < w)
    (hfa : ∀ k, k < f.hi + 1 - f.lo → fieldAt fs (f.lo + k) = some f) :
    (regSet w fs f (if b then 1 else 0) hw).testBit f.lo = b := by
  have h := regSet_testBit_own w fs f (if b then 1 else 0) hw 0 (by omega) hhi hfa
  rw [hacc] at h
  rw [Nat.add_zero] at h
  have h2 : (regSet w fs f (if b then 1 else 0) hw).testBit f.lo
      = (if b then 1 else 0).testBit 0 := h
  rw [h2]
  cases b <;> decide

/-- Writing `a` to a 64-bit register whose single field is the whole RW
range stores exactly `a`. -/
theorem hwWrite_whole_rw (nm : String) (hw a : Nat) (ha : a < 2 ^ 64) :
    hwWrite 64 [⟨0, 63, .rw, nm⟩] hw a = a := by
  apply Nat.eq_of_testBit_eq
  intro i
  rw [hwWrite, natOfBits_testBit]
  by_cases hi : i < 64
  · simp [hwBit, fieldAt, List.find?, show i ≤ 63 by omega, hi]
  · simp only [hi, decide_False, Bool.false_and]
    exact (Nat.testBit_lt_two_pow
      (lt_of_lt_of_le ha (Nat.pow_le_pow_right (by norm_num) (by omega)))).symm

/-- A 16-byte-aligned address has zero in each of its low 4 bits. -/
theorem testBit_of_aligned16 (a i : Nat) (ha : a % 16 = 0) (hi : i < 4) :
    a.testBit i = false := by
  have h := Nat.testBit_mod_two_pow a 4 i
  rw [show (2 : Nat) ^ 4 = 16 from rfl, ha] at h
  simpa [Nat.zero_testBit, hi] using h.symm

/-! ## Claims -/

/-- C3: each of `EventRingSegmentTableBaseAddress::set`, `ContextPointer::set`
and `EventRingDequeuePointer::set_dequeue_pointer` panics if and only if the
supplied 64-bit address has a non-zero bit among its low 4 bits; on any
aligned address, including 0, the call succeeds and no recoverable error
value is returned (the success value is `some`). -/
theorem c3_alignment_panic_iff (v a : Nat) (ha : a < 2 ^ 64) :
    (EventRingSegmentTableBaseAddress.set v a = none ↔ a % 16 ≠ 0) ∧
    (ContextPointer.set v a = none ↔ a % 16 ≠ 0) ∧
    (EventRingDequeuePointer.set_dequeue_pointer v a = none ↔ a % 16 ≠ 0) ∧
    (a % 16 = 0 →
      EventRingSegmentTableBaseAddress.set v a = some a ∧
      ContextPointer.set v a = some a ∧
      EventRingDequeuePointer.set_dequeue_pointer v a
        = some (EventRingDequeuePointer.setDequeuePointerVal v a)) := by
  have htz := trailingZeros64_ge_four_iff a
  by_cases h : a % 16 = 0 <;>
    simp [EventRingSegmentTableBaseAddress.set, ContextPointer.set,
      EventRingDequeuePointer.set_dequeue_pointer, htz, h]

/-- Witness for C3 at the aligned address 0. -/
theorem c3_alignment_panic_iff_witness :
    (0 : Nat) < 2 ^ 64 ∧ (0 : Nat) % 16 = 0 ∧
    EventRingSegmentTableBaseAddress.set 0 0 = some 0 ∧
    ContextPointer.set 0 0 = some 0 ∧
    EventRingDequeuePointer.set_dequeue_pointer 0 0
      = some (EventRingDequeuePointer.setDequeuePointerVal 0 0) := by
  have h := (c3_alignment_panic_iff 0 0 (by norm_num)).2.2.2 (by norm_num)
  exact ⟨by norm_num, by norm_num, h.1, h.2.1, h.2.2⟩

/-- C5: `Debug::new(base, mapper)` binds the eleven registers exactly at the
base-relative byte offsets 0x00, 0x04, 0x08, 0x10, 0x18, 0x20, 0x24, 0x28,
0x30, 0x38, 0x3C, with 64-bit storage for the Event Ring Segment Table Base
Address, Event Ring Dequeue Pointer and Context Pointer registers and 32-bit
storage for the rest. -/
theorem c5_debug_new_layout (base : Nat) :
    (Debug.new base).dcid = ⟨base + 0x00, 32⟩ ∧
    (Debug.new base).dcdb = ⟨base + 0x04, 32⟩ ∧
    (Debug.new base).dcerstsz = ⟨base + 0x08, 32⟩ ∧
    (Debug.new base).dcerstba = ⟨base + 0x10, 64⟩ ∧
    (Debug.new base).dcerdp = ⟨base + 0x18, 64⟩ ∧
    (Debug.new base).dcctrl = ⟨base + 0x20, 32⟩ ∧
    (Debug.new base).dcst = ⟨base + 0x24, 32⟩ ∧
    (Debug.new base).dcportsc = ⟨base + 0x28, 32⟩ ∧
    (Debug.new base).dccp = ⟨base + 0x30, 64⟩ ∧
    (Debug.new base).dcddi1 = ⟨base + 0x38, 32⟩ ∧
    (Debug.new base).dcddi2 = ⟨base + 0x3c, 32⟩ :=
  ⟨rfl, rfl, rfl, rfl, rfl, rfl, rfl, rfl, rfl, rfl, rfl⟩

/-- C6: the Control register value `0x8000_0012` decodes to
`debug_capability_enable`, `link_status_event_enable` and `dbc_run_change`
true and `halt_out_tr` and `dbc_run` false, and re-encoding those same field
values over a register with all read-only fields at 0 reproduces
`0x8000_0012`. -/
theorem c6_control_decode_encode :
    Control.debug_capability_enable 0x80000012 = true ∧
    Control.link_status_event_enable 0x80000012 = true ∧
    Control.dbc_run_change 0x80000012 = true ∧
    Control.halt_out_tr 0x80000012 = false ∧
    Control.dbc_run 0x80000012 = false ∧
    setBit 32 (setBit 32 (setBit 32 (setBit 32 (setBit 32 0 1 true) 2 false)
      3 false) 4 true) 31 true = 0x80000012 := by
  decide

/-- C7: for every raw 32-bit Table Offset word `v`, `bir` returns the low 3
bits of `v` and `offset` returns `v` with its low 3 bits masked off (hence a
multiple of 8); concretely `0x0000_1007` yields `bir = 7` and
`offset = 0x1000`. -/
theorem c7_table_offset_decode :
    (∀ v : Nat, v < 2 ^ 32 →
      TableOffset.bir v = v % 8 ∧ TableOffset.offset v = v - v % 8 ∧
      8 ∣ TableOffset.offset v) ∧
    TableOffset.bir 0x1007 = 7 ∧ TableOffset.offset 0x1007 = 0x1000 := by
  refine ⟨?_, by decide, by decide⟩
  intro v hv
  have hbir : TableOffset.bir v = v % 8 := by
    rw [TableOffset.bir, getBits, Nat.shiftRight_zero]
    norm_num
  have hoff : TableOffset.offset v = 8 * (v / 8) := by
    apply Nat.eq_of_testBit_eq
    intro i
    rw [TableOffset.offset, Nat.testBit_land, mask, Nat.testBit_xor,
      Nat.testBit_two_pow_sub_one,
      show (0b111 : Nat) = 2 ^ 3 - 1 from rfl, Nat.testBit_two_pow_sub_one,
      show 8 * (v / 8) = (v >>> 3) <<< 3 by
        rw [Nat.shiftLeft_eq, Nat.shiftRight_eq_div_pow]; ring,
      Nat.testBit_shiftLeft, Nat.testBit_shiftRight]
    by_cases h3 : i < 3
    · simp [h3, show i < 32 by omega, show ¬ 3 ≤ i by omega]
    · by_cases h32 : i < 32
      · simp [h3, h32, show 3 ≤ i by omega, show 3 + (i - 3) = i by omega]
      · have hv0 : v.testBit i = false :=
          Nat.testBit_lt_two_pow
            (lt_of_lt_of_le hv (Nat.pow_le_pow_right (by norm_num) (by omega)))
        simp [h3, h32, hv0, show 3 ≤ i by omega, show 3 + (i - 3) = i by omega]
  refine ⟨hbir, by rw [hoff]; omega, by rw [hoff]; exact Dvd.intro _ rfl⟩

/-- Witness for C7 at `v = 0x1007`. -/
theorem c7_table_offset_decode_witness :
    (0x1007 : Nat) < 2 ^ 32 ∧ TableOffset.bir 0x1007 = 0x1007 % 8 ∧
    TableOffset.offset 0x1007 = 0x1007 - 0x1007 % 8 ∧
    8 ∣ TableOffset.offset 0x1007 := by
  have h := c7_table_offset_decode.1 0x1007 (by norm_num)
  exact ⟨by norm_num, h.1, h.2.1, h.2.2⟩

/-- C8 counterexample: the claim says the Port Status and Control register
has three RW1C latched change-bit fields, but the source declares four
(`connect_status_change`, `port_reset_change`, `port_link_status_change`,
`port_config_error_change`). -/
theorem c8_three_rw1c_is_false :
    ¬ (PortStatusAndControl.fields.filter
        (fun f => f.access = Access.rw1c)).length = 3 := by
  decide

/-- C8 (amended): the Port Status and Control register's latched change-bit
fields are four RW1C bits, covering the connect-status, port-reset,
port-link-status and port-config-error change conditions, alongside Current
Connect Status (RO), Port Enabled/Disabled (RW), Port Reset (RO), Port Link
State (RO) and Port Speed (RO). -/
theorem c8_port_status_and_control_fields :
    (PortStatusAndControl.fields.filter (fun f => f.access = Access.rw1c))
      = [⟨17, 17, .rw1c, "connect_status_change"⟩,
         ⟨21, 21, .rw1c, "port_reset_change"⟩,
         ⟨22, 22, .rw1c, "port_link_status_change"⟩,
         ⟨23, 23, .rw1c, "port_config_error_change"⟩] ∧
    ⟨0, 0, .ro, "current_connect_status"⟩ ∈ PortStatusAndControl.fields ∧
    ⟨1, 1, .rw, "port_enabled_disabled"⟩ ∈ PortStatusAndControl.fields ∧
    ⟨4, 4, .ro, "port_reset"⟩ ∈ PortStatusAndControl.fields ∧
    ⟨5, 8, .ro, "port_link_state"⟩ ∈ PortStatusAndControl.fields ∧
    ⟨10, 13, .ro, "port_speed"⟩ ∈ PortStatusAndControl.fields := by
  decide

/-- C10: `EventRingSegmentTableSize::get` is total and never panics: for
every register value the extracted bits `0..=15` fit in a `u16`, so the
`try_into().unwrap()` conversion always succeeds. -/
theorem c10_erstsz_get_never_panics (v : Nat) :
    EventRingSegmentTableSize.get v = some (getBits v 0 15) ∧
    getBits v 0 15 < 2 ^ 16 := by
  have h16 : getBits v 0 15 < 2 ^ 16 := getBits_lt v 0 15
  exact ⟨by rw [EventRingSegmentTableSize.get, u16TryFrom, if_pos h16], h16⟩

/-- C1: for the Control register (and likewise Port Status and Control),
starting from a hardware register value whose RW1C bit (`dbc_run_change` at
bit 4, `connect_status_change` at bit 17) reads 1, invoking the setter of an
unrelated RW field (`link_status_event_enable` at bit 1,
`port_enabled_disabled` at bit 1) leaves that RW1C bit equal to 1, and
invoking the RW1C field's own setter with 1 makes a subsequent get of that
field return 0. -/
theorem c1_rw1c_non_interference :
    (∀ hw : Nat, hw < 2 ^ 32 → Control.dbc_run_change hw = true →
      (∀ b : Bool,
        Control.dbc_run_change
          (regSet 32 Control.fields Control.linkStatusEventEnableF
            (if b then 1 else 0) hw) = true) ∧
      Control.dbc_run_change
        (regSet 32 Control.fields Control.dbcRunChangeF 1 hw) = false) ∧
    (∀ hw : Nat, hw < 2 ^ 32 →
      PortStatusAndControl.connect_status_change hw = true →
      (∀ b : Bool,
        PortStatusAndControl.connect_status_change
          (regSet 32 PortStatusAndControl.fields
            PortStatusAndControl.portEnabledDisabledF
            (if b then 1 else 0) hw) = true) ∧
      PortStatusAndControl.connect_status_change
        (regSet 32 PortStatusAndControl.fields
          PortStatusAndControl.connectStatusChangeF 1 hw) = false) := by
  constructor
  · intro hw hhw hbit
    constructor
    · intro b
      show (regSet 32 Control.fields Control.linkStatusEventEnableF
        (if b then 1 else 0) hw).testBit 4 = true
      rw [regSet_frame 32 Control.fields Control.linkStatusEventEnableF
        (if b then 1 else 0) hw 4 (Or.inr (by decide)) hhw]
      exact hbit
    · exact regSet_bit_rw1c_one_clear 32 Control.fields Control.dbcRunChangeF
        hw rfl rfl (by decide) (by decide)
  · intro hw hhw hbit
    constructor
    · intro b
      show (regSet 32 PortStatusAndControl.fields
        PortStatusAndControl.portEnabledDisabledF
        (if b then 1 else 0) hw).testBit 17 = true
      rw [regSet_frame 32 PortStatusAndControl.fields
        PortStatusAndControl.portEnabledDisabledF
        (if b then 1 else 0) hw 17 (Or.inr (by decide)) hhw]
      exact hbit
    · exact regSet_bit_rw1c_one_clear 32 PortStatusAndControl.fields
        PortStatusAndControl.connectStatusChangeF hw rfl rfl (by decide)
        (by decide)

/-- Witness for C1 at the register values 0x10 (Control, `dbc_run_change`
set) and 0x20000 (Port Status and Control, `connect_status_change` set). -/
theorem c1_rw1c_non_interference_witness :
    (0x10 : Nat) < 2 ^ 32 ∧ Control.dbc_run_change 0x10 = true ∧
    Control.dbc_run_change
      (regSet 32 Control.fields Control.linkStatusEventEnableF 1 0x10)
      = true ∧
    Control.dbc_run_change
      (regSet 32 Control.fields Control.dbcRunChangeF 1 0x10) = false ∧
    (0x20000 : Nat) < 2 ^ 32 ∧
    PortStatusAndControl.connect_status_change 0x20000 = true ∧
    PortStatusAndControl.connect_status_change
      (regSet 32 PortStatusAndControl.fields
        PortStatusAndControl.portEnabledDisabledF 1 0x20000) = true ∧
    PortStatusAndControl.connect_status_change
      (regSet 32 PortStatusAndControl.fields
        PortStatusAndControl.connectStatusChangeF 1 0x20000) = false := by
  have h1 := c1_rw1c_non_interference.1 0x10 (by norm_num) (by decide)
  have h2 := c1_rw1c_non_interference.2 0x20000 (by norm_num) (by decide)
  have h1a := h1.1 true
  have h2a := h2.1 true
  simp only [if_true] at h1a h2a
  exact ⟨by norm_num, by decide, h1a, h1.2, by norm_num, by decide, h2a, h2.2⟩

/-- C9: the write-only Doorbell register exposes a setter but no getter for
`doorbell_target`, and the read-only Id and Status registers expose no
setter: every generated field operation on Id and Status leaves the
register's bit pattern unchanged. -/
theorem c9_access_category_interface :
    (OpKind.set ∈ generatedOps Doorbell.doorbellTargetF.access ∧
     OpKind.get ∉ generatedOps Doorbell.doorbellTargetF.access) ∧
    (∀ f ∈ Id.fields, generatedOps f.access = [OpKind.get]) ∧
    (∀ f ∈ Status.fields, generatedOps f.access = [OpKind.get]) ∧
    (∀ f ∈ Id.fields, ∀ k ∈ generatedOps f.access, ∀ x hw : Nat,
      opEffect 32 Id.fields f k x hw = hw) ∧
    (∀ f ∈ Status.fields, ∀ k ∈ generatedOps f.access, ∀ x hw : Nat,
      opEffect 32 Status.fields f k x hw = hw) := by
  refine ⟨⟨by decide, by decide⟩, by decide, by decide, ?_, ?_⟩
  · intro f hf k hk x hw
    simp only [Id.fields, List.mem_singleton] at hf
    subst hf
    simp only [generatedOps, List.mem_singleton] at hk
    subst hk
    rfl
  · intro f hf k hk x hw
    simp only [Status.fields, List.mem_cons, List.mem_singleton,
      List.not_mem_nil, or_false] at hf
    rcases hf with hf | hf | hf <;> subst hf <;>
      · simp only [generatedOps, List.mem_singleton] at hk
        subst hk
        rfl

/-- Witness for C9: a getter operation on the Id register's field leaves the
register value 7 unchanged. -/
theorem c9_access_category_interface_witness :
    (⟨16, 20, Access.ro, "debug_capability_event_ring_segment_table_max"⟩ : FieldSpec)
      ∈ Id.fields ∧
    OpKind.get ∈ generatedOps
      (⟨16, 20, Access.ro,
        "debug_capability_event_ring_segment_table_max"⟩ : FieldSpec).access ∧
    opEffect 32 Id.fields
      ⟨16, 20, Access.ro, "debug_capability_event_ring_segment_table_max"⟩
      OpKind.get 0 7 = 7 := by
  refine ⟨by decide, by decide, ?_⟩
  exact c9_access_category_interface.2.2.2.1
    ⟨16, 20, Access.ro, "debug_capability_event_ring_segment_table_max"⟩
    (by decide) OpKind.get (by decide) 0 7

/-- C2: for every register type in the Debug Capability and Extended Message
Interrupt blocks and every field setter, applying the setter changes no bit
of the hardware register outside the targeted field's declared bit range; in
particular `set_dequeue_pointer` leaves bits 0..=3 unchanged and
`EventRingSegmentTableSize::set` leaves bits 16..=31 unchanged. -/
theorem c2_field_isolation :
    (∀ hw x i : Nat, hw < 2 ^ 32 → x < 2 ^ 8 → (i < 8 ∨ 15 < i) →
      (regSet 32 Doorbell.fields Doorbell.doorbellTargetF x hw).testBit i
        = hw.testBit i) ∧
    (∀ hw sz i : Nat, hw < 2 ^ 32 → sz < 2 ^ 16 → 15 < i →
      (EventRingSegmentTableSize.hwSet hw sz).testBit i = hw.testBit i) ∧
    (∀ hw a i : Nat, hw < 2 ^ 64 → a < 2 ^ 64 → a % 16 = 0 → 63 < i →
      ∃ r, EventRingSegmentTableBaseAddress.hwSet hw a = some r ∧
        r.testBit i = hw.testBit i) ∧
    (∀ hw x i : Nat, hw < 2 ^ 64 → x < 2 ^ 3 → 2 < i →
      (regSet 64 EventRingDequeuePointer.fields
        EventRingDequeuePointer.dequeueErstSegmentIndexF x hw).testBit i
        = hw.testBit i) ∧
    (∀ hw a i : Nat, hw < 2 ^ 64 → a < 2 ^ 64 → a % 16 = 0 →
      (i < 4 ∨ 63 < i) →
      ∃ r, EventRingDequeuePointer.hwSetDequeuePointer hw a = some r ∧
        r.testBit i = hw.testBit i) ∧
    (∀ hw x i : Nat, hw < 2 ^ 32 → x < 2 → (i < 1 ∨ 1 < i) →
      (regSet 32 Control.fields Control.linkStatusEventEnableF x hw).testBit i
        = hw.testBit i) ∧
    (∀ hw x i : Nat, hw < 2 ^ 32 → x < 2 → (i < 2 ∨ 2 < i) →
      (regSet 32 Control.fields Control.haltOutTrF x hw).testBit i
        = hw.testBit i) ∧
    (∀ hw x i : Nat, hw < 2 ^ 32 → x < 2 → (i < 3 ∨ 3 < i) →
      (regSet 32 Control.fields Control.haltInTrF x hw).testBit i
        = hw.testBit i) ∧
    (∀ hw x i : Nat, hw < 2 ^ 32 → x < 2 → (i < 4 ∨ 4 < i) →
      (regSet 32 Control.fields Control.dbcRunChangeF x hw).testBit i
        = hw.testBit i) ∧
    (∀ hw x i : Nat, hw < 2 ^ 32 → x < 2 → (i < 31 ∨ 31 < i) →
      (regSet 32 Control.fields Control.debugCapabilityEnableF x hw).testBit i
        = hw.testBit i) ∧
    (∀ hw x i : Nat, hw < 2 ^ 32 → x < 2 → (i < 1 ∨ 1 < i) →
      (regSet 32 PortStatusAndControl.fields
        PortStatusAndControl.portEnabledDisabledF x hw).testBit i
        = hw.testBit i) ∧
    (∀ hw x i : Nat, hw < 2 ^ 32 → x < 2 → (i < 17 ∨ 17 < i) →
      (regSet 32 PortStatusAndControl.fields
        PortStatusAndControl.connectStatusChangeF x hw).testBit i
        = hw.testBit i) ∧
    (∀ hw x i : Nat, hw < 2 ^ 32 → x < 2 → (i < 21 ∨ 21 < i) →
      (regSet 32 PortStatusAndControl.fields
        PortStatusAndControl.portResetChangeF x hw).testBit i
        = hw.testBit i) ∧
    (∀ hw x i : Nat, hw < 2 ^ 32 → x < 2 → (i < 22 ∨ 22 < i) →
      (regSet 32 PortStatusAndControl.fields
        PortStatusAndControl.portLinkStatusChangeF x hw).testBit i
        = hw.testBit i) ∧
    (∀ hw x i : Nat, hw < 2 ^ 32 → x < 2 → (i < 23 ∨ 23 < i) →
      (regSet 32 PortStatusAndControl.fields
        PortStatusAndControl.portConfigErrorChangeF x hw).testBit i
        = hw.testBit i) ∧
    (∀ hw x i : Nat, hw < 2 ^ 32 → x < 2 ^ 8 → 7 < i →
      (regSet 32 DeviceDescriptorInfo1.fields
        DeviceDescriptorInfo1.dbcProtocolF x hw).testBit i = hw.testBit i) ∧
    (∀ hw x i : Nat, hw < 2 ^ 32 → x < 2 ^ 16 → (i < 16 ∨ 31 < i) →
      (regSet 32 DeviceDescriptorInfo1.fields
        DeviceDescriptorInfo1.vendorIdF x hw).testBit i = hw.testBit i) ∧
    (∀ hw x i : Nat, hw < 2 ^ 32 → x < 2 ^ 16 → 15 < i →
      (regSet 32 DeviceDescriptorInfo2.fields
        DeviceDescriptorInfo2.productIdF x hw).testBit i = hw.testBit i) ∧
    (∀ hw x i : Nat, hw < 2 ^ 32 → x < 2 ^ 16 → (i < 16 ∨ 31 < i) →
      (regSet 32 DeviceDescriptorInfo2.fields
        DeviceDescriptorInfo2.deviceRevisionF x hw).testBit i
        = hw.testBit i) ∧
    (∀ hw x i : Nat, hw < 2 ^ 16 → x < 2 → (i < 15 ∨ 15 < i) →
      (regSet 16 MessageControl.fields MessageControl.msiXEnableF x hw).testBit i
        = hw.testBit i) ∧
    (∀ hw a i : Nat, hw < 2 ^ 64 → a < 2 ^ 64 → a % 16 = 0 → 63 < i →
      ∃ r, ContextPointer.hwSet hw a = some r ∧
        r.testBit i = hw.testBit i) := by
  refine ⟨?_, ?_, ?_, ?_, ?_, ?_, ?_, ?_, ?_, ?_, ?_, ?_, ?_, ?_, ?_, ?_, ?_,
    ?_, ?_, ?_, ?_⟩
  · intro hw x i h1 h2 h3
    exact regSet_frame 32 Doorbell.fields Doorbell.doorbellTargetF x hw i h3 h1
  · intro hw sz i h1 h2 h3
    rw [EventRingSegmentTableSize.hwSet, hwWrite, natOfBits_testBit]
    by_cases hi : i < 32
    · have hfa : fieldAt EventRingSegmentTableSize.fields i = none := by
        simp [fieldAt, EventRingSegmentTableSize.fields, List.find?,
          show ¬ i ≤ 15 by omega]
      simp [hwBit, hfa, hi]
    · simp only [hi, decide_False, Bool.false_and]
      exact (Nat.testBit_lt_two_pow
        (lt_of_lt_of_le h1 (Nat.pow_le_pow_right (by norm_num) (by omega)))).symm
  · intro hw a i h1 h2 hal h3
    refine ⟨hwWrite 64 EventRingSegmentTableBaseAddress.fields hw a, ?_, ?_⟩
    · rw [EventRingSegmentTableBaseAddress.hwSet,
        show EventRingSegmentTableBaseAddress.set hw a = some a by
          rw [EventRingSegmentTableBaseAddress.set,
            if_pos ((trailingZeros64_ge_four_iff a).mpr hal)]]
    · have hr : hwWrite 64 EventRingSegmentTableBaseAddress.fields hw a = a :=
        hwWrite_whole_rw "event_ring_segment_table_base_address" hw a h2
      rw [hr,
        Nat.testBit_lt_two_pow
          (lt_of_lt_of_le h2 (Nat.pow_le_pow_right (by norm_num) (by omega)))]
      exact (Nat.testBit_lt_two_pow
        (lt_of_lt_of_le h1 (Nat.pow_le_pow_right (by norm_num) (by omega)))).symm
  · intro hw x i h1 h2 h3
    exact regSet_frame 64 EventRingDequeuePointer.fields
      EventRingDequeuePointer.dequeueErstSegmentIndexF x hw i (Or.inr h3) h1
  · intro hw a i h1 h2 hal h3
    have hs : EventRingDequeuePointer.set_dequeue_pointer hw a
        = some (EventRingDequeuePointer.setDequeuePointerVal hw a) := by
      rw [EventRingDequeuePointer.set_dequeue_pointer,
        if_pos ((trailingZeros64_ge_four_iff a).mpr hal)]
    refine ⟨hwWrite 64 EventRingDequeuePointer.fields hw
      (EventRingDequeuePointer.setDequeuePointerVal hw a), ?_, ?_⟩
    · rw [EventRingDequeuePointer.hwSetDequeuePointer, hs]
    · rw [hwWrite, natOfBits_testBit]
      by_cases hiw : i < 64
      · have hi4 : i < 4 := by omega
        have hwv : (EventRingDequeuePointer.setDequeuePointerVal hw a).testBit i
            = hw.testBit i := by
          rw [EventRingDequeuePointer.setDequeuePointerVal,
            testBit_setBits 64 hw 4 63 (getBits a 4 63) i (getBits_lt a 4 63)
              (by norm_num)]
          simp [show ¬ (4 ≤ i ∧ i ≤ 63) by omega, hiw]
        by_cases hi2 : i ≤ 2
        · have hfa : fieldAt EventRingDequeuePointer.fields i
              = some ⟨0, 2, .rw, "dequeue_erst_segment_index"⟩ := by
            simp [fieldAt, EventRingDequeuePointer.fields, List.find?, hi2]
          simp [hwBit, hfa, hiw, hwv]
        · have hfa : fieldAt EventRingDequeuePointer.fields i = none := by
            simp [fieldAt, EventRingDequeuePointer.fields, List.find?, hi2,
              show ¬ 4 ≤ i by omega]
          simp [hwBit, hfa, hiw]
      · simp only [hiw, decide_False, Bool.false_and]
        exact (Nat.testBit_lt_two_pow
          (lt_of_lt_of_le h1
            (Nat.pow_le_pow_right (by norm_num) (by omega)))).symm
  · intro hw x i h1 h2 h3
    exact regSet_frame 32 Control.fields Control.linkStatusEventEnableF
      x hw i h3 h1
  · intro hw x i h1 h2 h3
    exact regSet_frame 32 Control.fields Control.haltOutTrF x hw i h3 h1
  · intro hw x i h1 h2 h3
    exact regSet_frame 32 Control.fields Control.haltInTrF x hw i h3 h1
  · intro hw x i h1 h2 h3
    exact regSet_frame 32 Control.fields Control.dbcRunChangeF x hw i h3 h1
  · intro hw x i h1 h2 h3
    exact regSet_frame 32 Control.fields Control.debugCapabilityEnableF
      x hw i h3 h1
  · intro hw x i h1 h2 h3
    exact regSet_frame 32 PortStatusAndControl.fields
      PortStatusAndControl.portEnabledDisabledF x hw i h3 h1
  · intro hw x i h1 h2 h3
    exact regSet_frame 32 PortStatusAndControl.fields
      PortStatusAndControl.connectStatusChangeF x hw i h3 h1
  · intro hw x i h1 h2 h3
    exact regSet_frame 32 PortStatusAndControl.fields
      PortStatusAndControl.portResetChangeF x hw i h3 h1
  · intro hw x i h1 h2 h3
    exact regSet_frame 32 PortStatusAndControl.fields
      PortStatusAndControl.portLinkStatusChangeF x hw i h3 h1
  · intro hw x i h1 h2 h3
    exact regSet_frame 32 PortStatusAndControl.fields
      PortStatusAndControl.portConfigErrorChangeF x hw i h3 h1
  · intro hw x i h1 h2 h3
    exact regSet_frame 32 DeviceDescriptorInfo1.fields
      DeviceDescriptorInfo1.dbcProtocolF x hw i (Or.inr h3) h1
  · intro hw x i h1 h2 h3
    exact regSet_frame 32 DeviceDescriptorInfo1.fields
      DeviceDescriptorInfo1.vendorIdF x hw i h3 h1
  · intro hw x i h1 h2 h3
    exact regSet_frame 32 DeviceDescriptorInfo2.fields
      DeviceDescriptorInfo2.productIdF x hw i (Or.inr h3) h1
  · intro hw x i h1 h2 h3
    exact regSet_frame 32 DeviceDescriptorInfo2.fields
      DeviceDescriptorInfo2.deviceRevisionF x hw i h3 h1
  · intro hw x i h1 h2 h3
    exact regSet_frame 16 MessageControl.fields MessageControl.msiXEnableF
      x hw i h3 h1
  · intro hw a i h1 h2 hal h3
    refine ⟨hwWrite 64 ContextPointer.fields hw a, ?_, ?_⟩
    · rw [ContextPointer.hwSet,
        show ContextPointer.set hw a = some a by
          rw [ContextPointer.set,
            if_pos ((trailingZeros64_ge_four_iff a).mpr hal)]]
    · have hr : hwWrite 64 ContextPointer.fields hw a = a :=
        hwWrite_whole_rw "context_pointer" hw a h2
      rw [hr,
        Nat.testBit_lt_two_pow
          (lt_of_lt_of_le h2 (Nat.pow_le_pow_right (by norm_num) (by omega)))]
      exact (Nat.testBit_lt_two_pow
        (lt_of_lt_of_le h1 (Nat.pow_le_pow_right (by norm_num) (by omega)))).symm

/-- Witness for C2: setting the Doorbell's target field on register value
0x12345678 leaves bit 16 unchanged. -/
theorem c2_field_isolation_witness :
    (0x12345678 : Nat) < 2 ^ 32 ∧ (0xab : Nat) < 2 ^ 8 ∧
    ((16 : Nat) < 8 ∨ 15 < (16 : Nat)) ∧
    (regSet 32 Doorbell.fields Doorbell.doorbellTargetF 0xab
      0x12345678).testBit 16 = (0x12345678 : Nat).testBit 16 := by
  refine ⟨by norm_num, by norm_num, by norm_num, ?_⟩
  exact c2_field_isolation.1 0x12345678 0xab 16 (by norm_num) (by norm_num)
    (by norm_num)

/-- C4: for every RW field in the two blocks, and for every value
representable in the field's bit range (with the 16-byte-alignment
precondition for the base-address and pointer fields), performing `set(v)`
and then `get()` returns exactly `v`; concretely
`EventRingSegmentTableBaseAddress::set(0x1000)` followed by `get()` yields
`0x1000`. -/
theorem c4_round_trip :
    (∀ hw sz : Nat, hw < 2 ^ 32 → sz < 2 ^ 16 →
      EventRingSegmentTableSize.get (EventRingSegmentTableSize.hwSet hw sz)
        = some sz) ∧
    (∀ hw a : Nat, hw < 2 ^ 64 → a < 2 ^ 64 → a % 16 = 0 →
      ∃ r, EventRingSegmentTableBaseAddress.hwSet hw a = some r ∧
        EventRingSegmentTableBaseAddress.get r = a) ∧
    (∃ r, EventRingSegmentTableBaseAddress.hwSet 0 0x1000 = some r ∧
      EventRingSegmentTableBaseAddress.get r = 0x1000) ∧
    (∀ hw a : Nat, hw < 2 ^ 64 → a < 2 ^ 64 → a % 16 = 0 →
      ∃ r, EventRingDequeuePointer.hwSetDequeuePointer hw a = some r ∧
        EventRingDequeuePointer.dequeue_pointer r = a) ∧
    (∀ hw x : Nat, hw < 2 ^ 64 → x < 2 ^ 3 →
      regGet EventRingDequeuePointer.dequeueErstSegmentIndexF
        (regSet 64 EventRingDequeuePointer.fields
          EventRingDequeuePointer.dequeueErstSegmentIndexF x hw) = x) ∧
    (∀ hw : Nat, ∀ b : Bool, hw < 2 ^ 32 →
      Control.link_status_event_enable
        (regSet 32 Control.fields Control.linkStatusEventEnableF
          (if b then 1 else 0) hw) = b) ∧
    (∀ hw : Nat, ∀ b : Bool, hw < 2 ^ 32 →
      Control.debug_capability_enable
        (regSet 32 Control.fields Control.debugCapabilityEnableF
          (if b then 1 else 0) hw) = b) ∧
    (∀ hw : Nat, ∀ b : Bool, hw < 2 ^ 32 →
      PortStatusAndControl.port_enabled_disabled
        (regSet 32 PortStatusAndControl.fields
          PortStatusAndControl.portEnabledDisabledF
          (if b then 1 else 0) hw) = b) ∧
    (∀ hw x : Nat, hw < 2 ^ 32 → x < 2 ^ 8 →
      regGet DeviceDescriptorInfo1.dbcProtocolF
        (regSet 32 DeviceDescriptorInfo1.fields
          DeviceDescriptorInfo1.dbcProtocolF x hw) = x) ∧
    (∀ hw x : Nat, hw < 2 ^ 32 → x < 2 ^ 16 →
      regGet DeviceDescriptorInfo1.vendorIdF
        (regSet 32 DeviceDescriptorInfo1.fields
          DeviceDescriptorInfo1.vendorIdF x hw) = x) ∧
    (∀ hw x : Nat, hw < 2 ^ 32 → x < 2 ^ 16 →
      regGet DeviceDescriptorInfo2.productIdF
        (regSet 32 DeviceDescriptorInfo2.fields
          DeviceDescriptorInfo2.productIdF x hw) = x) ∧
    (∀ hw x : Nat, hw < 2 ^ 32 → x < 2 ^ 16 →
      regGet DeviceDescriptorInfo2.deviceRevisionF
        (regSet 32 DeviceDescriptorInfo2.fields
          DeviceDescriptorInfo2.deviceRevisionF x hw) = x) ∧
    (∀ hw : Nat, ∀ b : Bool, hw < 2 ^ 16 →
      MessageControl.msi_x_enable
        (regSet 16 MessageControl.fields MessageControl.msiXEnableF
          (if b then 1 else 0) hw) = b) ∧
    (∀ hw a : Nat, hw < 2 ^ 64 → a < 2 ^ 64 → a % 16 = 0 →
      ∃ r, ContextPointer.hwSet hw a = some r ∧ ContextPointer.get r = a) := by
  refine ⟨?_, ?_, ⟨0x1000, by decide, by decide⟩, ?_, ?_, ?_, ?_, ?_, ?_, ?_,
    ?_, ?_, ?_, ?_⟩
  · intro hw sz h1 h2
    have hval : getBits (EventRingSegmentTableSize.hwSet hw sz) 0 15 = sz := by
      apply Nat.eq_of_testBit_eq
      intro j
      rw [testBit_getBits]
      simp only [Nat.zero_add]
      by_cases hj : j < 16
      · have hj15 : j ≤ 15 := by omega
        rw [EventRingSegmentTableSize.hwSet, hwWrite, natOfBits_testBit]
        have hfa : fieldAt EventRingSegmentTableSize.fields j
            = some ⟨0, 15, .rw, "event_ring_segment_table_size"⟩ := by
          simp [fieldAt, EventRingSegmentTableSize.fields, List.find?, hj15]
        have hwv : (EventRingSegmentTableSize.set hw sz).testBit j
            = sz.testBit j := by
          rw [EventRingSegmentTableSize.set,
            testBit_setBits 32 hw 0 15 sz j h2 (by norm_num)]
          simp [hj15]
        simp [hwBit, hfa, hj, show j < 32 by omega, hwv]
      · have hsz : sz.testBit j = false :=
          Nat.testBit_lt_two_pow
            (lt_of_lt_of_le h2 (Nat.pow_le_pow_right (by norm_num) (by omega)))
        simp [hj, hsz]
    rw [EventRingSegmentTableSize.get, hval, u16TryFrom, if_pos h2]
  · intro hw a h1 h2 hal
    refine ⟨hwWrite 64 EventRingSegmentTableBaseAddress.fields hw a, ?_, ?_⟩
    · rw [EventRingSegmentTableBaseAddress.hwSet,
        show EventRingSegmentTableBaseAddress.set hw a = some a by
          rw [EventRingSegmentTableBaseAddress.set,
            if_pos ((trailingZeros64_ge_four_iff a).mpr hal)]]
    · show hwWrite 64 EventRingSegmentTableBaseAddress.fields hw a = a
      exact hwWrite_whole_rw "event_ring_segment_table_base_address" hw a h2
  · intro hw a h1 h2 hal
    have hs : EventRingDequeuePointer.set_dequeue_pointer hw a
        = some (EventRingDequeuePointer.setDequeuePointerVal hw a) := by
      rw [EventRingDequeuePointer.set_dequeue_pointer,
        if_pos ((trailingZeros64_ge_four_iff a).mpr hal)]
    refine ⟨hwWrite 64 EventRingDequeuePointer.fields hw
      (EventRingDequeuePointer.setDequeuePointerVal hw a), ?_, ?_⟩
    · rw [EventRingDequeuePointer.hwSetDequeuePointer, hs]
    · apply Nat.eq_of_testBit_eq
      intro i
      rw [EventRingDequeuePointer.dequeue_pointer, Nat.testBit_land, mask,
        Nat.testBit_xor, Nat.testBit_two_pow_sub_one,
        show (0b1111 : Nat) = 2 ^ 4 - 1 from rfl, Nat.testBit_two_pow_sub_one]
      rw [hwWrite, natOfBits_testBit]
      by_cases hi4 : i < 4
      · simp [hi4, show i < 64 by omega, testBit_of_aligned16 a i hal hi4]
      · by_cases hi64 : i < 64
        · have hfa : fieldAt EventRingDequeuePointer.fields i
              = some ⟨4, 63, .rw, "dequeue_pointer"⟩ := by
            simp [fieldAt, EventRingDequeuePointer.fields, List.find?,
              show ¬ i ≤ 2 by omega, show 4 ≤ i by omega, show i ≤ 63 by omega]
          have hwv : (EventRingDequeuePointer.setDequeuePointerVal hw a).testBit i
              = a.testBit i := by
            rw [EventRingDequeuePointer.setDequeuePointerVal,
              testBit_setBits 64 hw 4 63 (getBits a 4 63) i (getBits_lt a 4 63)
                (by norm_num)]
            rw [if_pos ⟨by omega, by omega⟩, testBit_getBits]
            simp [show i - 4 < 60 by omega, show 4 + (i - 4) = i by omega]
          simp [hwBit, hfa, hi4, hi64, hwv]
        · have ha0 : a.testBit i = false :=
            Nat.testBit_lt_two_pow
              (lt_of_lt_of_le h2
                (Nat.pow_le_pow_right (by norm_num) (by omega)))
          simp [hi4, hi64, ha0]
  · intro hw x h1 h2
    exact regSet_get_rw 64 EventRingDequeuePointer.fields
      EventRingDequeuePointer.dequeueErstSegmentIndexF x hw rfl h2 (by decide)
      (by decide)
  · intro hw b h1
    exact regSet_bit_rw_roundtrip 32 Control.fields
      Control.linkStatusEventEnableF b hw rfl rfl (by decide) (by decide)
  · intro hw b h1
    exact regSet_bit_rw_roundtrip 32 Control.fields
      Control.debugCapabilityEnableF b hw rfl rfl (by decide) (by decide)
  · intro hw b h1
    exact regSet_bit_rw_roundtrip 32 PortStatusAndControl.fields
      PortStatusAndControl.portEnabledDisabledF b hw rfl rfl (by decide)
      (by decide)
  · intro hw x h1 h2
    exact regSet_get_rw 32 DeviceDescriptorInfo1.fields
      DeviceDescriptorInfo1.dbcProtocolF x hw rfl h2 (by decide) (by decide)
  · intro hw x h1 h2
    exact regSet_get_rw 32 DeviceDescriptorInfo1.fields
      DeviceDescriptorInfo1.vendorIdF x hw rfl h2 (by decide) (by decide)
  · intro hw x h1 h2
    exact regSet_get_rw 32 DeviceDescriptorInfo2.fields
      DeviceDescriptorInfo2.productIdF x hw rfl h2 (by decide) (by decide)
  · intro hw x h1 h2
    exact regSet_get_rw 32 DeviceDescriptorInfo2.fields
      DeviceDescriptorInfo2.deviceRevisionF x hw rfl h2 (by decide) (by decide)
  · intro hw b h1
    exact regSet_bit_rw_roundtrip 16 MessageControl.fields
      MessageControl.msiXEnableF b hw rfl rfl (by decide) (by decide)
  · intro hw a h1 h2 hal
    refine ⟨hwWrite 64 ContextPointer.fields hw a, ?_, ?_⟩
    · rw [ContextPointer.hwSet,
        show ContextPointer.set hw a = some a by
          rw [ContextPointer.set,
            if_pos ((trailingZeros64_ge_four_iff a).mpr hal)]]
    · show hwWrite 64 ContextPointer.fields hw a = a
      exact hwWrite_whole_rw "context_pointer" hw a h2

/-- Witness for C4: writing 0x1000 to the Event Ring Segment Table Base
Address register over the prior value 0 and reading it back yields 0x1000,
and the boolean round trip of `link_status_event_enable` at register value 0
returns true. -/
theorem c4_round_trip_witness :
    (0 : Nat) < 2 ^ 64 ∧ (0x1000 : Nat) < 2 ^ 64 ∧ (0x1000 : Nat) % 16 = 0 ∧
    (∃ r, EventRingSegmentTableBaseAddress.hwSet 0 0x1000 = some r ∧
      EventRingSegmentTableBaseAddress.get r = 0x1000) ∧
    (0 : Nat) < 2 ^ 32 ∧
    Control.link_status_event_enable
      (regSet 32 Control.fields Control.linkStatusEventEnableF 1 0) = true := by
  refine ⟨by norm_num, by norm_num, by norm_num, ?_, by norm_num, ?_⟩
  · exact c4_round_trip.2.1 0 0x1000 (by norm_num) (by norm_num) (by norm_num)
  · have h := c4_round_trip.2.2.2.2.2.1 0 true (by norm_num)
    simpa using h
